import Mathlib

/-!
# Verification of the ccparser core

Shallow embedding, over `List Char`, of the core of the `ccparser`
package (`validator.py`, `parser.py`, `formatter.py`, `utils.py`), and
theorems settling the spec's claims against it.

Python strings are modelled as `List Char` (ASCII; the embeddings of
`str.isdigit`, `str.strip` and `int(...)` are restricted to the ASCII
characters that actually occur in card strings).  Python exceptions are
modelled with `Except` / `Option`, one error constructor per raise site.
-/

namespace CCP

/-- Numeric value of a digit character, as Python `int(d)` on one char. -/
def digitVal (c : Char) : Nat := c.toNat - '0'.toNat

/-- Python `str.isdigit`: non-empty and every character a digit. -/
def isdigit (s : List Char) : Bool := !s.isEmpty && s.all Char.isDigit

/-- Elements of a list at indices 0, 2, 4, …; used to embed the Python
slices `digits[-1::-2]` and `digits[-2::-2]` (applied to the reversed
list, resp. its tail). -/
def everySecond : List α → List α
  | [] => []
  | [a] => [a]
  | a :: _ :: rest => a :: everySecond rest

/-- Fuel-driven decimal-digit expansion (`digits_of(str(n))` in the
source); `fuel ≥ number of digits` makes the fallback unreachable. -/
def decDigitsGo (fuel n : Nat) : List Nat :=
  match fuel with
  | 0 => [n % 10]
  | f + 1 => if n < 10 then [n] else decDigitsGo f (n / 10) ++ [n % 10]

/-- Decimal digits of `n`, most significant first (Python `digits_of`). -/
def decDigits (n : Nat) : List Nat := decDigitsGo n n

/-- Embedding of the inner `luhn_checksum` of `validator.validate_card_number`:
`odd_digits = digits[-1::-2]`, `even_digits = digits[-2::-2]`,
`checksum = sum(odd) + Σ sum(digits_of(d*2)) for d in even`, mod 10. -/
def luhn_checksum (digits : List Nat) : Nat :=
  let odd_digits := everySecond digits.reverse
  let even_digits := everySecond (digits.reverse.drop 1)
  (odd_digits.sum + (even_digits.map (fun d => (decDigits (d * 2)).sum)).sum) % 10

/-- Embedding of `validator.validate_card_number`: false on empty or
non-digit input, else Luhn checksum must be 0. -/
def validate_card_number (card_number : List Char) : Bool :=
  if !isdigit card_number then false
  else luhn_checksum (card_number.map digitVal) == 0

/-- Luhn total over a reversed digit list (head = rightmost digit,
1-indexed position 1): odd positions kept, even positions doubled with 9
subtracted when the double exceeds 9.  Stated from the spec's wording,
to be compared with the source's `luhn_checksum`. -/
def luhnTotalRev : List Nat → Nat
  | [] => 0
  | [a] => a
  | a :: b :: rest => a + (if 9 < b * 2 then b * 2 - 9 else b * 2) + luhnTotalRev rest

/-- Spec-side Luhn total of a digit list (leftmost digit first): doubling
every second digit counted from the rightmost. -/
def luhnTotal (digits : List Nat) : Nat := luhnTotalRev digits.reverse

theorem decDigits_double_sum (d : Nat) (h : d < 10) :
    (decDigits (d * 2)).sum = if 9 < d * 2 then d * 2 - 9 else d * 2 := by
  interval_cases d <;> decide

theorem luhnTotalRev_eq_checksum_parts (l : List Nat) (h : ∀ d ∈ l, d < 10) :
    luhnTotalRev l
      = (everySecond l).sum
        + ((everySecond (l.drop 1)).map (fun d => (decDigits (d * 2)).sum)).sum := by
  induction l using luhnTotalRev.induct with
  | case1 => simp [luhnTotalRev, everySecond]
  | case2 a => simp [luhnTotalRev, everySecond]
  | case3 a b rest ih =>
    have hb : b < 10 := h b (by simp)
    have hrest : ∀ d ∈ rest, d < 10 := fun d hd => h d (by simp [hd])
    have hfb := decDigits_double_sum b hb
    cases rest with
    | nil => simp [luhnTotalRev, everySecond, hfb]
    | cons c cs =>
      have hih := ih hrest
      simp only [luhnTotalRev, everySecond, List.drop_succ_cons, List.drop_zero,
        List.map_cons, List.sum_cons] at hih ⊢
      rw [hih, hfb]
      omega

theorem luhn_checksum_eq_luhnTotal_mod (digits : List Nat)
    (h : ∀ d ∈ digits, d < 10) : luhn_checksum digits = luhnTotal digits % 10 := by
  unfold luhn_checksum luhnTotal
  rw [luhnTotalRev_eq_checksum_parts digits.reverse
    (fun d hd => h d (List.mem_reverse.mp hd))]

theorem digitVal_lt_10 {c : Char} (h : c.isDigit = true) : digitVal c < 10 := by
  unfold digitVal
  simp only [Char.isDigit, Bool.and_eq_true, decide_eq_true_eq] at h
  have h1 : (48 : Nat) ≤ c.toNat := h.1
  have h2 : c.toNat ≤ (57 : Nat) := h.2
  have h0 : '0'.toNat = 48 := rfl
  omega

theorem validate_card_number_eq_luhnTotal (s : List Char) (h : isdigit s = true) :
    validate_card_number s = true ↔ luhnTotal (s.map digitVal) % 10 = 0 := by
  have hall : ∀ d ∈ s.map digitVal, d < 10 := by
    intro d hd
    rcases List.mem_map.mp hd with ⟨c, hc, rfl⟩
    have : c.isDigit = true := by
      have := (Bool.and_eq_true _ _).mp h
      exact (List.all_eq_true.mp this.2) c hc
    exact digitVal_lt_10 this
  simp only [validate_card_number, h, Bool.not_true, Bool.false_eq_true, if_false,
    luhn_checksum_eq_luhnTotal_mod (s.map digitVal) hall, beq_iff_eq]

/-- C1: `validate_card_number` returns true on a digit string exactly when
the Luhn total (double every second digit from the right, subtract 9 from
doubles above 9, sum everything) is a multiple of 10; it returns false on
empty or non-digit input; and the four fixtures evaluate as documented. -/
theorem C1_validate_card_number_luhn :
    (∀ s : List Char, isdigit s = true →
      (validate_card_number s = true ↔ luhnTotal (s.map digitVal) % 10 = 0))
    ∧ (∀ s : List Char, isdigit s = false → validate_card_number s = false)
    ∧ validate_card_number "4111111111111111".data = true
    ∧ validate_card_number "378282246310005".data = true
    ∧ validate_card_number "0000000000000000".data = true
    ∧ validate_card_number "4111111111111112".data = false := by
  refine ⟨validate_card_number_eq_luhnTotal, ?_, by decide, by decide, by decide, by decide⟩
  intro s h
  simp [validate_card_number, h]

/-- Witness for C1 at the concrete inputs "18" (a digit string whose Luhn
total is 10) and "1a" (a non-digit string). -/
theorem C1_validate_card_number_luhn_witness :
    luhnTotal ("18".data.map digitVal) % 10 = 0
    ∧ validate_card_number "1a".data = false :=
  ⟨(C1_validate_card_number_luhn.1 "18".data (by decide)).mp (by decide),
   C1_validate_card_number_luhn.2.1 "1a".data (by decide)⟩

/-! ## Issuer classification (`utils.py`)

Each regex of `CARD_TYPE_PATTERNS` is anchored at both ends, so it is
embedded as the conjunction of an all-digits condition, a length
condition and a prefix condition; character ranges are expanded into the
finite list of prefixes they denote. -/

/-- Regex `^4[0-9]{12}(?:[0-9]{3})?$`. -/
def matchVisa (s : List Char) : Bool :=
  s.all Char.isDigit && s.take 1 == ['4'] && (s.length == 13 || s.length == 16)

/-- Regex `^5[1-5][0-9]{14}$`. -/
def matchMasterCard (s : List Char) : Bool :=
  s.all Char.isDigit && s.length == 16 &&
    [['5','1'], ['5','2'], ['5','3'], ['5','4'], ['5','5']].contains (s.take 2)

/-- Regex `^3[47][0-9]{13}$`. -/
def matchAMEX (s : List Char) : Bool :=
  s.all Char.isDigit && s.length == 15 && [['3','4'], ['3','7']].contains (s.take 2)

/-- Regex `^6(?:011|4[4-9][0-9]|5[0-9]{2})[0-9]{12}$`. -/
def matchDiscover (s : List Char) : Bool :=
  s.all Char.isDigit && s.length == 16 &&
    (s.take 4 == ['6','0','1','1']
      || [['6','4','4'], ['6','4','5'], ['6','4','6'], ['6','4','7'], ['6','4','8'],
          ['6','4','9']].contains (s.take 3)
      || s.take 2 == ['6','5'])

/-- Regex `^(?:2131|1800|35\d{3})\d{11}$`: the alternatives `2131` and
`1800` are followed by 11 digits (total length 15), the alternative
`35\d{3}` by 11 more digits (total length 16). -/
def matchJCB (s : List Char) : Bool :=
  s.all Char.isDigit &&
    ((s.take 4 == ['2','1','3','1'] && s.length == 15)
      || (s.take 4 == ['1','8','0','0'] && s.length == 15)
      || (s.take 2 == ['3','5'] && s.length == 16))

/-- Regex `^3(?:0[0-5]|[68][0-9])[0-9]{11}$`. -/
def matchDinersClub (s : List Char) : Bool :=
  s.all Char.isDigit && s.length == 14 &&
    ([['3','0','0'], ['3','0','1'], ['3','0','2'], ['3','0','3'], ['3','0','4'],
      ['3','0','5']].contains (s.take 3)
      || s.take 2 == ['3','6'] || s.take 2 == ['3','8'])

/-- Regex `^62[0-9]{14,17}$`. -/
def matchUnionPay (s : List Char) : Bool :=
  s.all Char.isDigit && s.take 2 == ['6','2'] && (16 ≤ s.length && s.length ≤ 19)

/-- Embedding of `utils.detect_card_type`: empty input is Unknown; the
input is first stripped of non-digits; the patterns are tried in the
insertion order of `CARD_TYPE_PATTERNS` and the first match wins. -/
def detect_card_type (card_number : List Char) : String :=
  if card_number.isEmpty then "Unknown"
  else
    let clean_number := card_number.filter Char.isDigit
    if matchVisa clean_number then "Visa"
    else if matchMasterCard clean_number then "MasterCard"
    else if matchAMEX clean_number then "AMEX"
    else if matchDiscover clean_number then "Discover"
    else if matchJCB clean_number then "JCB"
    else if matchDinersClub clean_number then "Diners Club"
    else if matchUnionPay clean_number then "UnionPay"
    else "Unknown"

/-- Shape of the digit strings the `JCB` regex accepts: spec-side
description used by the amended claim C4. -/
def JCBShape (s : List Char) : Prop :=
  (s.length = 15 ∧ (s.take 4 = ['2','1','3','1'] ∨ s.take 4 = ['1','8','0','0']))
  ∨ (s.length = 16 ∧ s.take 2 = ['3','5'])

instance (s : List Char) : Decidable (JCBShape s) := by
  unfold JCBShape; infer_instance

theorem take_of_take {s l : List Char} {n m : Nat} (h : s.take n = l) (hm : m ≤ n) :
    s.take m = l.take m := by
  subst h; rw [List.take_take, Nat.min_eq_left hm]

theorem take_contains_false {s : List Char} {k m : Nat} {pre : List Char}
    (h : s.take m = pre) (L : List (List Char)) (hL : ∀ l ∈ L, l.take m ≠ pre)
    (hmk : m ≤ k) : L.contains (s.take k) = false := by
  induction L with
  | nil => rfl
  | cons a as ih =>
    simp only [List.contains_cons, Bool.or_eq_false_iff]
    refine ⟨?_, ih (fun l hl => hL l (List.mem_cons_of_mem _ hl))⟩
    rw [beq_eq_false_iff_ne]
    intro hc
    apply hL a (List.mem_cons_self ..)
    rw [← hc, List.take_take, Nat.min_eq_left hmk, h]

theorem take_beq_false {s : List Char} {k m : Nat} {pre l : List Char}
    (h : s.take m = pre) (hl : l.take m ≠ pre) (hmk : m ≤ k) :
    (s.take k == l) = false := by
  rw [beq_eq_false_iff_ne]
  intro hc
  apply hl
  rw [← hc, List.take_take, Nat.min_eq_left hmk, h]

/-- C4 (amended): on all-digit input, `detect_card_type` answers `JCB`
exactly for strings of length 15 starting with `2131` or `1800`, or of
length 16 starting with `35`. -/
theorem C4_detect_card_type_jcb (s : List Char) (hd : s.all Char.isDigit = true) :
    detect_card_type s = "JCB" ↔ JCBShape s := by
  have hfil : s.filter Char.isDigit = s :=
    List.filter_eq_self.mpr (List.all_eq_true.mp hd)
  by_cases hs : s.isEmpty = true
  · rw [List.isEmpty_eq_true] at hs
    subst hs
    simp [detect_card_type, JCBShape]
  · replace hs : s.isEmpty = false := by simpa using hs
    constructor
    · intro h
      simp only [detect_card_type, hs, Bool.false_eq_true, if_false, hfil] at h
      by_cases hV : matchVisa s = true
      · simp [hV] at h
      by_cases hM : matchMasterCard s = true
      · simp [hV, hM] at h
      by_cases hA : matchAMEX s = true
      · simp [hV, hM, hA] at h
      by_cases hD : matchDiscover s = true
      · simp [hV, hM, hA, hD] at h
      by_cases hJ : matchJCB s = true
      · simp only [matchJCB, hd, Bool.true_and, Bool.or_eq_true, Bool.and_eq_true,
          beq_iff_eq] at hJ
        unfold JCBShape
        tauto
      · by_cases hDC : matchDinersClub s = true
        · simp [hV, hM, hA, hD, hJ, hDC] at h
        · by_cases hU : matchUnionPay s = true
          · simp [hV, hM, hA, hD, hJ, hDC, hU] at h
          · simp [hV, hM, hA, hD, hJ, hDC, hU] at h
    · intro hsh
      rcases hsh with ⟨hlen, h4 | h4⟩ | ⟨hlen, h2⟩
      · have h2 : s.take 2 = ['2', '1'] := by simpa using take_of_take h4 (by omega)
        have h1 : s.take 1 = ['2'] := by simpa using take_of_take h4 (by omega)
        have hV : matchVisa s = false := by simp [matchVisa, hlen]
        have hM : matchMasterCard s = false := by simp [matchMasterCard, hlen]
        have hA : matchAMEX s = false := by
          have hc := take_contains_false (k := 2) h2 [['3', '4'], ['3', '7']] (by decide) (by omega)
          simp only [matchAMEX, hc, Bool.and_false]
        have hD : matchDiscover s = false := by simp [matchDiscover, hlen]
        have hJ : matchJCB s = true := by simp [matchJCB, hd, h4, hlen]
        simp [detect_card_type, hs, hfil, hV, hM, hA, hD, hJ]
      · have h2 : s.take 2 = ['1', '8'] := by simpa using take_of_take h4 (by omega)
        have h1 : s.take 1 = ['1'] := by simpa using take_of_take h4 (by omega)
        have hV : matchVisa s = false := by simp [matchVisa, hlen]
        have hM : matchMasterCard s = false := by simp [matchMasterCard, hlen]
        have hA : matchAMEX s = false := by
          have hc := take_contains_false (k := 2) h2 [['3', '4'], ['3', '7']] (by decide) (by omega)
          simp only [matchAMEX, hc, Bool.and_false]
        have hD : matchDiscover s = false := by simp [matchDiscover, hlen]
        have hJ : matchJCB s = true := by simp [matchJCB, hd, h4, hlen]
        simp [detect_card_type, hs, hfil, hV, hM, hA, hD, hJ]
      · have h1 : s.take 1 = ['3'] := by simpa using take_of_take h2 (by omega)
        have hV : matchVisa s = false := by simp [matchVisa, h1]
        have hM : matchMasterCard s = false := by
          have hc := take_contains_false (k := 2) h2
            [['5', '1'], ['5', '2'], ['5', '3'], ['5', '4'], ['5', '5']] (by decide) (by omega)
          simp only [matchMasterCard, hc, Bool.and_false]
        have hA : matchAMEX s = false := by simp [matchAMEX, hlen]
        have hD : matchDiscover s = false := by
          have hb4 := take_beq_false (k := 4) (l := ['6', '0', '1', '1']) h2 (by decide) (by omega)
          have hc3 := take_contains_false (k := 3) h2
            [['6', '4', '4'], ['6', '4', '5'], ['6', '4', '6'], ['6', '4', '7'],
             ['6', '4', '8'], ['6', '4', '9']] (by decide) (by omega)
          have hb2 : (s.take 2 == ['6', '5']) = false := by simp [h2]
          simp only [matchDiscover, hb4, hc3, hb2, Bool.or_false, Bool.false_or,
            Bool.and_false]
        have hJ : matchJCB s = true := by simp [matchJCB, hd, h2, hlen]
        simp [detect_card_type, hs, hfil, hV, hM, hA, hD, hJ]

/-- Witness for C4 at the 15-digit string 213100000000000, which the
classifier answers JCB. -/
theorem C4_detect_card_type_jcb_witness :
    detect_card_type ('2' :: '1' :: '3' :: '1' :: List.replicate 11 '0') = "JCB" :=
  (C4_detect_card_type_jcb ('2' :: '1' :: '3' :: '1' :: List.replicate 11 '0')
    (by decide)).mpr (by decide)

/-- Counterexample to C4 as stated: the 16-digit all-digit string
2131000000000000 is not classified as JCB (the `2131` alternative of the
JCB regex demands total length 15, not 16). -/
theorem C4_counterexample_16_digit_2131 :
    ('2' :: '1' :: '3' :: '1' :: List.replicate 12 '0').length = 16
    ∧ ('2' :: '1' :: '3' :: '1' :: List.replicate 12 '0').all Char.isDigit = true
    ∧ detect_card_type ('2' :: '1' :: '3' :: '1' :: List.replicate 12 '0') ≠ "JCB" := by
  refine ⟨by decide, by decide, ?_⟩
  decide

/-! ## Formatting and masking (`formatter.py`) -/

/-- Left-to-right chunks of 4 characters, the `clean_number[i:i+4]` walk
of `formatter.py`; the final chunk may be shorter. -/
def chunks4 : List Char → List (List Char)
  | [] => []
  | a :: b :: c :: d :: rest => [a, b, c, d] :: chunks4 rest
  | l => [l]

/-- Python `separator.join(groups)`. -/
def joinSep (sep : List Char) : List (List Char) → List Char
  | [] => []
  | [g] => g
  | g :: rest => g ++ sep ++ joinSep sep rest

/-- Embedding of `formatter.format_card_number`: strip non-digits, then
4-6-5 for length 15, 4-6-4 for length 14, groups of 4 otherwise. -/
def format_card_number (card_number : List Char) (separator : List Char) : List Char :=
  if card_number.isEmpty then []
  else
    let clean_number := card_number.filter Char.isDigit
    if clean_number.length == 15 then
      clean_number.take 4 ++ separator ++ (clean_number.drop 4).take 6
        ++ separator ++ clean_number.drop 10
    else if clean_number.length == 14 then
      clean_number.take 4 ++ separator ++ (clean_number.drop 4).take 6
        ++ separator ++ clean_number.drop 10
    else joinSep separator (chunks4 clean_number)

/-- Default separator of `format_card_number`. -/
def spaceSep : List Char := [' ']

/-- Spec operation `strip_formatting`: remove every non-digit character. -/
def strip_formatting (s : List Char) : List Char := s.filter Char.isDigit

/-- The group loop of the generic branch of `mask_card_number`: fully
masked chunk while the masked prefix covers it, a partial chunk where the
visible boundary falls inside, then chunks passed through. -/
def maskGroups : List (List Char) → Nat → List (List Char)
  | [], _ => []
  | g :: rest, remaining =>
    if g.length ≤ remaining then
      List.replicate g.length '*' :: maskGroups rest (remaining - g.length)
    else if 0 < remaining then
      (List.replicate remaining '*' ++ g.drop remaining) :: maskGroups rest 0
    else g :: maskGroups rest 0

/-- Embedding of `formatter.mask_card_number`.  Note the Python slice
`clean_number[-visible_digits:]`, which yields the whole string when
`visible_digits = 0`. -/
def mask_card_number (card_number : List Char) (visible_digits : Nat) : List Char :=
  if card_number.isEmpty then []
  else
    let clean_number := card_number.filter Char.isDigit
    let length := clean_number.length
    if length < visible_digits then clean_number
    else
      let visible_part :=
        if visible_digits == 0 then clean_number
        else clean_number.drop (length - visible_digits)
      if length == 15 then "**** ****** *".data ++ visible_part
      else if length == 14 then "**** ****** ".data ++ visible_part
      else if length == 16 then "**** **** **** ".data ++ visible_part
      else joinSep [' '] (maskGroups (chunks4 clean_number) (length - visible_digits))

theorem chunks4_flatten (l : List Char) : (chunks4 l).flatten = l := by
  induction l using chunks4.induct with
  | case1 => rfl
  | case2 a b c d rest ih => simp [chunks4, ih]
  | case3 l h1 h2 => simp [chunks4]

theorem chunks4_all {p : Char → Bool} {l : List Char} (h : l.all p = true) :
    ∀ g ∈ chunks4 l, g.all p = true := by
  induction l using chunks4.induct with
  | case1 => simp [chunks4]
  | case2 a b c d rest ih =>
    simp only [List.all_cons, Bool.and_eq_true] at h
    intro g hg
    simp only [chunks4, List.mem_cons] at hg
    rcases hg with rfl | hg
    · simp [h.1, h.2.1, h.2.2.1, h.2.2.2.1]
    · exact ih h.2.2.2.2 g hg
  | case3 l h1 h2 =>
    intro g hg
    simp only [chunks4, List.mem_cons, List.not_mem_nil, or_false] at hg
    subst hg
    exact h

theorem filter_joinSep_space (gs : List (List Char)) :
    (joinSep [' '] gs).filter Char.isDigit = gs.flatten.filter Char.isDigit := by
  induction gs with
  | nil => rfl
  | cons g rest ih =>
    cases rest with
    | nil => simp [joinSep]
    | cons b t =>
      simp only [joinSep, List.flatten_cons, List.filter_append] at ih ⊢
      simp [ih]

theorem filter_replicate_star (n : Nat) :
    (List.replicate n '*').filter Char.isDigit = [] := by
  induction n with
  | zero => rfl
  | succ n ih => simp [List.replicate_succ, ih]

theorem maskGroups_zero (gs : List (List Char)) : maskGroups gs 0 = gs := by
  induction gs with
  | nil => rfl
  | cons g rest ih =>
    by_cases hg : g.length ≤ 0
    · have : g = [] := List.eq_nil_of_length_eq_zero (by omega)
      subst this
      simp [maskGroups, ih]
    · simp [maskGroups, hg, ih]

theorem all_flatten {p : Char → Bool} {gs : List (List Char)}
    (h : ∀ g ∈ gs, g.all p = true) : gs.flatten.all p = true := by
  rw [List.all_eq_true]
  intro x hx
  rcases List.mem_flatten.mp hx with ⟨g, hg, hxg⟩
  exact List.all_eq_true.mp (h g hg) x hxg

theorem all_drop {p : Char → Bool} {l : List Char} (h : l.all p = true) (n : Nat) :
    (l.drop n).all p = true := by
  rw [List.all_eq_true]
  exact fun x hx => List.all_eq_true.mp h x (List.drop_subset n l hx)

theorem filter_join_maskGroups (gs : List (List Char)) (rem : Nat)
    (hall : ∀ g ∈ gs, g.all Char.isDigit = true) (hrem : rem ≤ gs.flatten.length) :
    (maskGroups gs rem).flatten.filter Char.isDigit = gs.flatten.drop rem := by
  induction gs generalizing rem with
  | nil => simp [maskGroups]
  | cons g rest ih =>
    have hg : g.all Char.isDigit = true := hall g (by simp)
    have hrest : ∀ x ∈ rest, x.all Char.isDigit = true :=
      fun x hx => hall x (by simp [hx])
    by_cases h1 : g.length ≤ rem
    · have hrem2 : rem - g.length ≤ rest.flatten.length := by
        simp only [List.flatten_cons, List.length_append] at hrem
        omega
      simp only [maskGroups, h1, if_true, List.flatten_cons, List.filter_append,
        filter_replicate_star, List.nil_append, ih (rem - g.length) hrest hrem2]
      rw [List.drop_append_eq_append_drop, List.drop_eq_nil_of_le h1, List.nil_append]
    · by_cases h2 : 0 < rem
      · simp only [maskGroups, h1, if_false, h2, if_true, List.flatten_cons,
          List.filter_append, filter_replicate_star, List.nil_append,
          maskGroups_zero]
        rw [List.filter_eq_self.mpr (List.all_eq_true.mp (all_drop hg rem)),
          List.filter_eq_self.mpr (List.all_eq_true.mp (all_flatten hrest)),
          List.drop_append_of_le_length (by omega)]
      · have h0 : rem = 0 := by omega
        subst h0
        rw [maskGroups_zero, List.drop_zero]
        exact List.filter_eq_self.mpr (List.all_eq_true.mp (all_flatten hall))

theorem all_take {p : Char → Bool} {l : List Char} (h : l.all p = true) (n : Nat) :
    (l.take n).all p = true := by
  rw [List.all_eq_true]
  exact fun x hx => List.all_eq_true.mp h x (List.take_subset n l hx)

theorem isEmpty_false_of_ne_nil {l : List Char} (h : l ≠ []) : l.isEmpty = false := by
  cases l with
  | nil => exact absurd rfl h
  | cons a t => rfl

theorem filter_format_card_number (N : List Char) (h : N.all Char.isDigit = true) :
    (format_card_number N spaceSep).filter Char.isDigit = N := by
  by_cases hN : N.isEmpty = true
  · rw [List.isEmpty_eq_true] at hN
    subst hN
    rfl
  · replace hN : N.isEmpty = false := by simpa using hN
    have hfil : N.filter Char.isDigit = N := List.filter_eq_self.mpr (List.all_eq_true.mp h)
    have hsplit : (N.drop 4).take 6 ++ N.drop 10 = N.drop 4 := by
      have h1 : (N.drop 4).drop 6 = N.drop 10 := by
        rw [List.drop_drop]
      rw [← h1, List.take_append_drop]
    have hfin : N.take 4 ++ ((N.drop 4).take 6 ++ N.drop 10) = N := by
      rw [hsplit, List.take_append_drop]
    by_cases h15 : (N.length == 15) = true
    · simp only [format_card_number, hN, Bool.false_eq_true, if_false, hfil, h15, if_true,
        List.filter_append, spaceSep]
      rw [List.filter_eq_self.mpr (List.all_eq_true.mp (all_take h 4)),
        List.filter_eq_self.mpr (List.all_eq_true.mp (all_take (all_drop h 4) 6)),
        List.filter_eq_self.mpr (List.all_eq_true.mp (all_drop h 10))]
      simpa [List.append_assoc] using hfin
    · by_cases h14 : (N.length == 14) = true
      · simp only [format_card_number, hN, Bool.false_eq_true, if_false, hfil, h15,
          Bool.false_eq_true, if_false, h14, if_true, List.filter_append, spaceSep]
        rw [List.filter_eq_self.mpr (List.all_eq_true.mp (all_take h 4)),
          List.filter_eq_self.mpr (List.all_eq_true.mp (all_take (all_drop h 4) 6)),
          List.filter_eq_self.mpr (List.all_eq_true.mp (all_drop h 10))]
        simpa [List.append_assoc] using hfin
      · simp only [format_card_number, hN, Bool.false_eq_true, if_false, hfil, h15, h14]
        rw [show spaceSep = [' '] from rfl, filter_joinSep_space, chunks4_flatten, hfil]

/-- C8: re-formatting is idempotent: for every digit string N,
`format(strip_formatting(format(N))) = format(N)` with the default
single-space separator, where `strip_formatting` drops every non-digit
character. -/
theorem C8_format_roundtrip (N : List Char) (h : N.all Char.isDigit = true) :
    format_card_number (strip_formatting (format_card_number N spaceSep)) spaceSep
      = format_card_number N spaceSep := by
  unfold strip_formatting
  rw [filter_format_card_number N h]

/-- Witness for C8 at the 16-digit Visa fixture. -/
theorem C8_format_roundtrip_witness :
    format_card_number (strip_formatting (format_card_number "4111111111111111".data spaceSep))
      spaceSep = format_card_number "4111111111111111".data spaceSep :=
  C8_format_roundtrip "4111111111111111".data (by decide)

/-- C6 (amended): for a digit string N and `1 ≤ v ≤ len(N)`, the digit
characters of `mask(N, v)`, in order, are exactly the last v digits of N
(the generic branch may interpose a space inside the visible suffix at a
4-digit chunk boundary, so the suffix is not always contiguous); for
`len(N) < v` the input is returned unchanged. -/
theorem C6_mask_visible_digits :
    (∀ (N : List Char) (v : Nat), N.all Char.isDigit = true → N.length < v →
      mask_card_number N v = N)
    ∧ (∀ (N : List Char) (v : Nat), N.all Char.isDigit = true → 1 ≤ v → v ≤ N.length →
      (mask_card_number N v).filter Char.isDigit = N.drop (N.length - v)) := by
  constructor
  · intro N v hd hlt
    by_cases hN : N.isEmpty = true
    · rw [List.isEmpty_eq_true] at hN
      subst hN
      rfl
    · replace hN : N.isEmpty = false := by simpa using hN
      have hfil : N.filter Char.isDigit = N := List.filter_eq_self.mpr (List.all_eq_true.mp hd)
      simp only [mask_card_number, hN, Bool.false_eq_true, if_false, hfil, hlt, if_true]
  · intro N v hd h1 h2
    have hne : N ≠ [] := by
      intro hcon
      subst hcon
      simp at h2
      omega
    have hN : N.isEmpty = false := isEmpty_false_of_ne_nil hne
    have hfil : N.filter Char.isDigit = N := List.filter_eq_self.mpr (List.all_eq_true.mp hd)
    have hnl : ¬ (N.length < v) := by omega
    have hv0 : (v == 0) = false := by
      simp only [beq_eq_false_iff_ne, ne_eq]
      omega
    have hvis : (N.drop (N.length - v)).filter Char.isDigit = N.drop (N.length - v) :=
      List.filter_eq_self.mpr (List.all_eq_true.mp (all_drop hd _))
    simp only [mask_card_number, hN, Bool.false_eq_true, if_false, hfil, hnl, if_false, hv0]
    by_cases h15 : (N.length == 15) = true
    · simp only [h15, if_true, List.filter_append, hvis]
      rfl
    · by_cases h14 : (N.length == 14) = true
      · simp only [h15, Bool.false_eq_true, if_false, h14, if_true, List.filter_append, hvis]
        rfl
      · by_cases h16 : (N.length == 16) = true
        · simp only [h15, h14, Bool.false_eq_true, if_false, h16, if_true,
            List.filter_append, hvis]
          rfl
        · rw [if_neg (by simp [h15]), if_neg (by simp [h14]), if_neg (by simp [h16]),
            filter_joinSep_space, filter_join_maskGroups (chunks4 N) (N.length - v)
              (chunks4_all hd) (by rw [chunks4_flatten]; omega), chunks4_flatten]

/-- Witness for C6 at "123" (shorter than the visible count, returned
unchanged) and "12345678" with 6 visible digits. -/
theorem C6_mask_visible_digits_witness :
    mask_card_number "123".data 4 = "123".data
    ∧ (mask_card_number "12345678".data 6).filter Char.isDigit
        = "12345678".data.drop ("12345678".data.length - 6) :=
  ⟨C6_mask_visible_digits.1 "123".data 4 (by decide) (by decide),
   C6_mask_visible_digits.2 "12345678".data 6 (by decide) (by decide) (by decide)⟩

/-- Counterexample to C6 as stated: for N = "12345678" and v = 6 the mask
is "**34 5678", whose trailing 6 characters are "4 5678", not the last 6
digits "345678" — a space is interposed at the chunk boundary. -/
theorem C6_counterexample_trailing_not_verbatim :
    6 ≤ "12345678".data.length ∧ "12345678".data.all Char.isDigit = true
    ∧ (mask_card_number "12345678".data 6).drop
        ((mask_card_number "12345678".data 6).length - 6)
      ≠ "12345678".data.drop ("12345678".data.length - 6) := by
  refine ⟨by decide, by decide, ?_⟩
  decide

theorem maskGroups_full (gs : List (List Char)) (rem : Nat)
    (h : gs.flatten.length ≤ rem) :
    maskGroups gs rem = gs.map (fun g => List.replicate g.length '*') := by
  induction gs generalizing rem with
  | nil => rfl
  | cons g rest ih =>
    simp only [List.flatten_cons, List.length_append] at h
    have h1 : g.length ≤ rem := by omega
    simp only [maskGroups, h1, if_true, List.map_cons]
    rw [ih (rem - g.length) (by omega)]

theorem all_joinSep {p : Char → Bool} (hsep : p ' ' = true) (gs : List (List Char))
    (h : ∀ g ∈ gs, g.all p = true) : (joinSep [' '] gs).all p = true := by
  induction gs with
  | nil => rfl
  | cons g rest ih =>
    cases rest with
    | nil => simpa [joinSep] using h g (by simp)
    | cons b t =>
      have hg := h g (by simp)
      have hrest : ∀ x ∈ b :: t, x.all p = true := fun x hx => h x (by simp [List.mem_cons] at hx ⊢; tauto)
      simp only [joinSep, List.all_append, List.all_cons, List.all_nil, Bool.and_eq_true]
      exact ⟨⟨hg, hsep, trivial⟩, ih hrest⟩

/-- C9: with `visible_digits = 0`, the Python slice `clean[-0:]` yields
the whole string, so a digit string of length 14, 15 or 16 is rendered as
the fixed star pattern followed by the entire number in the clear, while
any other length is fully masked, with no digit in the output. -/
theorem C9_mask_zero_visible (N : List Char) (hd : N.all Char.isDigit = true) :
    (N.length = 14 → mask_card_number N 0 = "**** ****** ".data ++ N)
    ∧ (N.length = 15 → mask_card_number N 0 = "**** ****** *".data ++ N)
    ∧ (N.length = 16 → mask_card_number N 0 = "**** **** **** ".data ++ N)
    ∧ (N.length ≠ 14 → N.length ≠ 15 → N.length ≠ 16 →
        (mask_card_number N 0).all (fun c => !c.isDigit) = true) := by
  have hfil : N.filter Char.isDigit = N := List.filter_eq_self.mpr (List.all_eq_true.mp hd)
  refine ⟨?_, ?_, ?_, ?_⟩
  · intro hlen
    have hN : N.isEmpty = false := isEmpty_false_of_ne_nil (by intro hc; subst hc; simp at hlen)
    simp [mask_card_number, hN, hfil, hlen]
  · intro hlen
    have hN : N.isEmpty = false := isEmpty_false_of_ne_nil (by intro hc; subst hc; simp at hlen)
    simp [mask_card_number, hN, hfil, hlen]
  · intro hlen
    have hN : N.isEmpty = false := isEmpty_false_of_ne_nil (by intro hc; subst hc; simp at hlen)
    simp [mask_card_number, hN, hfil, hlen]
  · intro h14 h15 h16
    by_cases hN : N.isEmpty = true
    · rw [List.isEmpty_eq_true] at hN
      subst hN
      decide
    · replace hN : N.isEmpty = false := by simpa using hN
      have hb15 : (N.length == 15) = false := by simp [h15]
      have hb14 : (N.length == 14) = false := by simp [h14]
      have hb16 : (N.length == 16) = false := by simp [h16]
      simp only [mask_card_number, hN, Bool.false_eq_true, if_false, hfil,
        Nat.not_lt_zero, if_false, hb15, hb14, hb16, Nat.sub_zero]
      rw [maskGroups_full (chunks4 N) N.length (by rw [chunks4_flatten])]
      apply all_joinSep (by decide)
      intro g hg
      rcases List.mem_map.mp hg with ⟨g0, hg0, rfl⟩
      rw [List.all_eq_true]
      intro x hx
      have := List.eq_of_mem_replicate hx
      subst this
      decide

/-- Witness for C9 at a 14-digit string and at an 8-digit string. -/
theorem C9_mask_zero_visible_witness :
    mask_card_number "12345678901234".data 0 = "**** ****** ".data ++ "12345678901234".data
    ∧ (mask_card_number "12345678".data 0).all (fun c => !c.isDigit) = true :=
  ⟨(C9_mask_zero_visible "12345678901234".data (by decide)).1 (by decide),
   (C9_mask_zero_visible "12345678".data (by decide)).2.2.2
     (by decide) (by decide) (by decide)⟩

/-! ## Expiry validation (`validator.validate_expiry_date`)

Dates are modelled as `(year, month, day)` triples and the ambient
`datetime.datetime.now()` as an explicit `Date` parameter; the
comparison `expiry_date >= now` (both at midnight) is the lexicographic
order on the triple.  The `datetime.datetime` constructor raises
`ValueError` outside year range 1–9999, which the function's
`except` clause turns into `False`; this is embedded as an explicit
guard. -/

/-- Python `str.strip`: drop leading and trailing whitespace. -/
def stripWs (s : List Char) : List Char :=
  ((s.dropWhile Char.isWhitespace).reverse.dropWhile Char.isWhitespace).reverse

/-- Value of a string of digit characters, most significant first. -/
def digitsToNat (ds : List Char) : Nat := ds.foldl (fun a c => a * 10 + digitVal c) 0

/-- Python `int(token)` after whitespace stripping: an optional sign
followed by at least one digit (the underscore and non-ASCII digit forms
Python also accepts are not modelled; they cannot appear in the claims'
inputs). -/
def pyIntCore : List Char → Option Int
  | '+' :: ds => if isdigit ds then some (digitsToNat ds : Int) else none
  | '-' :: ds => if isdigit ds then some (-(digitsToNat ds : Int)) else none
  | ds => if isdigit ds then some (digitsToNat ds : Int) else none

/-- Python `int(token)` on a string token (`ValueError` is `none`). -/
def pyInt (s : List Char) : Option Int := pyIntCore (stripWs s)

/-- Calendar date at day granularity. -/
structure Date where
  year : Nat
  month : Nat
  day : Nat

/-- Gregorian leap-year rule, as implemented by Python `datetime`. -/
def isLeap (y : Nat) : Bool := y % 4 == 0 && (y % 100 != 0 || y % 400 == 0)

/-- Number of days of month `m` of year `y` (defined for `1 ≤ m ≤ 12`);
this is the value the source's `datetime(y, m+1, 1) - timedelta(days=1)`
computation produces for `m < 12`. -/
def daysInMonth (y m : Nat) : Nat :=
  if m == 2 then (if isLeap y then 29 else 28)
  else if m == 4 || m == 6 || m == 9 || m == 11 then 30
  else 31

/-- Lexicographic date comparison `a <= b`, the order `datetime` uses on
midnight datetimes. -/
def dateLE (a b : Date) : Bool :=
  a.year < b.year || (a.year == b.year && (a.month < b.month
    || (a.month == b.month && a.day ≤ b.day)))

/-- Range and date checks of `validate_expiry_date` after both fields
parsed and the year was normalized: month in [1,12], year window
[current_year − 10, current_year + 20], the `datetime` constructor's
1–9999 year range (a `ValueError` outside it is caught by the `except`
and yields false; unreachable for realistic `now`), then the comparison
of the last day of the expiry month against `now`. -/
def expiryCheck (month_int year_int : Int) (now : Date) : Bool :=
  if month_int < 1 || 12 < month_int then false
  else if year_int < (now.year : Int) - 10 || (now.year : Int) + 20 < year_int then false
  else if year_int < 1 || 9999 < year_int then false
  else dateLE now ⟨year_int.toNat, month_int.toNat,
    if month_int.toNat == 12 then 31 else daysInMonth year_int.toNat month_int.toNat⟩

/-- Embedding of `validator.validate_expiry_date`, with `now` explicit:
parse month and year (parse failure yields false via the `except`), add
2000 to a year below 100, then run the checks. -/
def validate_expiry_date (month year : List Char) (now : Date) : Bool :=
  match pyInt month, pyInt year with
  | some month_int, some yi =>
      expiryCheck month_int (if yi < 100 then yi + 2000 else yi) now
  | _, _ => false

/-- Strict lexicographic date order, Prop form. -/
def dateLT (a b : Date) : Prop :=
  a.year < b.year ∨ (a.year = b.year ∧ (a.month < b.month
    ∨ (a.month = b.month ∧ a.day < b.day)))

instance (a b : Date) : Decidable (dateLT a b) := by
  unfold dateLT; infer_instance

/-- Spec-side reading of claim C5: month parses to an integer in [1,12],
the year (plus 2000 when below 100) lies in the window
[current_year − 10, current_year + 20], and the last calendar day of the
expiry month is not strictly before the current date. -/
def expirySpecValid (month year : List Char) (now : Date) : Prop :=
  ∃ mi yi : Int, pyInt month = some mi ∧ pyInt year = some yi ∧
    1 ≤ mi ∧ mi ≤ 12 ∧
    (now.year : Int) - 10 ≤ (if yi < 100 then yi + 2000 else yi) ∧
    (if yi < 100 then yi + 2000 else yi) ≤ (now.year : Int) + 20 ∧
    ¬ dateLT ⟨(if yi < 100 then yi + 2000 else yi).toNat, mi.toNat,
        daysInMonth (if yi < 100 then yi + 2000 else yi).toNat mi.toNat⟩ now

theorem dateLE_iff_not_dateLT (a b : Date) : dateLE a b = true ↔ ¬ dateLT b a := by
  unfold dateLE dateLT
  simp only [Bool.or_eq_true, Bool.and_eq_true, decide_eq_true_eq, beq_iff_eq]
  omega

theorem daysInMonth_twelve (y : Nat) : daysInMonth y 12 = 31 := rfl

theorem expiryCheck_iff (mi Y : Int) (now : Date)
    (hy1 : 100 ≤ now.year) (hy2 : now.year ≤ 9900) :
    expiryCheck mi Y now = true
      ↔ (1 ≤ mi ∧ mi ≤ 12 ∧ (now.year : Int) - 10 ≤ Y ∧ Y ≤ (now.year : Int) + 20 ∧
          ¬ dateLT ⟨Y.toNat, mi.toNat, daysInMonth Y.toNat mi.toNat⟩ now) := by
  unfold expiryCheck
  by_cases h1 : (mi < 1 || 12 < mi) = true
  · rw [if_pos h1]
    simp only [Bool.or_eq_true, decide_eq_true_eq] at h1
    simp only [Bool.false_eq_true, false_iff]
    rintro ⟨a, b, -⟩
    omega
  · rw [if_neg h1]
    simp only [Bool.or_eq_true, decide_eq_true_eq, not_or, not_lt] at h1
    by_cases h2 : (Y < (now.year : Int) - 10 || (now.year : Int) + 20 < Y) = true
    · rw [if_pos h2]
      simp only [Bool.or_eq_true, decide_eq_true_eq] at h2
      simp only [Bool.false_eq_true, false_iff]
      rintro ⟨-, -, a, b, -⟩
      omega
    · rw [if_neg h2]
      simp only [Bool.or_eq_true, decide_eq_true_eq, not_or, not_lt] at h2
      rw [if_neg (by
        simp only [Bool.or_eq_true, decide_eq_true_eq, not_or, not_lt]
        omega)]
      have hld : (if (mi.toNat == 12) = true then 31 else daysInMonth Y.toNat mi.toNat)
          = daysInMonth Y.toNat mi.toNat := by
        by_cases h12 : mi.toNat = 12
        · rw [if_pos (by simp [h12]), h12, daysInMonth_twelve]
        · rw [if_neg (by simp [h12])]
      rw [dateLE_iff_not_dateLT, hld]
      constructor
      · intro h
        exact ⟨h1.1, h1.2, h2.1, h2.2, h⟩
      · rintro ⟨-, -, -, -, h⟩
        exact h

/-- C5: against a current date with a realistic year, the expiry
validator accepts exactly when the month parses into [1,12], the
(2-digit-normalized) year lies in the ±(10,20) window around the current
year, and the last calendar day of the expiry month is not strictly
before the current date; every other input — including non-numeric
month or year — yields false. -/
theorem C5_validate_expiry_date_spec (month year : List Char) (now : Date)
    (hy1 : 100 ≤ now.year) (hy2 : now.year ≤ 9900) :
    validate_expiry_date month year now = true ↔ expirySpecValid month year now := by
  unfold validate_expiry_date expirySpecValid
  cases hm : pyInt month with
  | none => simp [hm]
  | some mi =>
    cases hyr : pyInt year with
    | none => simp [hm, hyr]
    | some yi =>
      simp only [hm, hyr, Option.some.injEq]
      constructor
      · intro h
        exact ⟨mi, yi, rfl, rfl, (expiryCheck_iff mi _ now hy1 hy2).mp h⟩
      · rintro ⟨mi1, yi1, h1, h2, hP⟩
        cases h1
        cases h2
        exact (expiryCheck_iff mi _ now hy1 hy2).mpr hP

/-- Witness for C5 at month "12", year "2030", current date 2026-10-12. -/
theorem C5_validate_expiry_date_spec_witness :
    expirySpecValid "12".data "2030".data ⟨2026, 10, 12⟩ :=
  (C5_validate_expiry_date_spec "12".data "2030".data ⟨2026, 10, 12⟩
    (by decide) (by decide)).mp (by decide)

/-! ## CVV validation and record-level queries (`validator.py`, `parser.py`) -/

/-- Embedding of `validator.validate_cvv`: digits only; 4 digits for
AMEX, 3 for every other detected type. -/
def validate_cvv (cvv card_number : List Char) : Bool :=
  if !(isdigit cvv) then false
  else if detect_card_type card_number == "AMEX" then cvv.length == 4
  else cvv.length == 3

/-- Parsed card record: the four fields `CCParser.__init__` stores. -/
structure Record where
  card_number : List Char
  expiry_month : List Char
  expiry_year : List Char
  cvv : List Char
deriving DecidableEq, Repr

/-- Errors of the strict `CCParser.validate`. -/
inductive ValError where
  | invalidCardNumber
  | invalidExpiryDate
  | invalidCVV
deriving DecidableEq, Repr

/-- Embedding of `CCParser.is_valid` (the wrapped validators are total,
so the `except` clause of the source is dead code). -/
def record_is_valid (r : Record) (now : Date) : Bool :=
  if !(validate_card_number r.card_number) then false
  else if !(validate_expiry_date r.expiry_month r.expiry_year now) then false
  else if !(validate_cvv r.cvv r.card_number) then false
  else true

/-- Embedding of the strict `CCParser.validate`: the distinguished error
of the first failing check, in the order number, expiry, CVV. -/
def record_validate (r : Record) (now : Date) : Option ValError :=
  if !(validate_card_number r.card_number) then some .invalidCardNumber
  else if !(validate_expiry_date r.expiry_month r.expiry_year now) then some .invalidExpiryDate
  else if !(validate_cvv r.cvv r.card_number) then some .invalidCVV
  else none

/-! ## Tokenizer (`CCParser.__init__` / `_parse_card_string`)

One error constructor per raise site; `errClass` maps each site to the
Python exception class raised there. -/

/-- Raise sites of `CCParser.__init__` and `_parse_card_string`. -/
inductive ParseError where
  | emptyInput
  | invalidFormat
  | expirySubsep
  | expiryParts
  | monthRange
  | monthNumeric
  | yearLength
  | numberDigits
  | cvvDigits
deriving DecidableEq, Repr

instance {ε α : Type} [DecidableEq ε] [DecidableEq α] : DecidableEq (Except ε α) := fun a b =>
  match a, b with
  | .error x, .error y =>
    if h : x = y then isTrue (h ▸ rfl) else isFalse fun hc => h (Except.error.inj hc)
  | .error _, .ok _ => isFalse fun hc => Except.noConfusion hc
  | .ok _, .error _ => isFalse fun hc => Except.noConfusion hc
  | .ok x, .ok y =>
    if h : x = y then isTrue (h ▸ rfl) else isFalse fun hc => h (Except.ok.inj hc)

/-- Python exception class raised at each site. -/
def errClass : ParseError → String
  | .emptyInput => "InvalidCardNumberError"
  | .invalidFormat => "InvalidCardNumberError"
  | .expirySubsep => "InvalidExpiryDateError"
  | .expiryParts => "InvalidExpiryDateError"
  | .monthRange => "InvalidExpiryDateError"
  | .monthNumeric => "InvalidExpiryDateError"
  | .yearLength => "InvalidExpiryDateError"
  | .numberDigits => "InvalidCardNumberError"
  | .cvvDigits => "InvalidCVVError"

/-- Delimiter class of `re.split(r"[|: ]+", ...)`. -/
def isDelim (c : Char) : Bool := c == '|' || c == ':' || c == ' '

/-- Split on runs of delimiters, discarding empty tokens (the
`[p for p in re.split(...) if p]` list). -/
def splitTokensAux : List Char → List Char → List (List Char)
  | [], acc => if acc.isEmpty then [] else [acc.reverse]
  | c :: rest, acc =>
    if isDelim c then
      if acc.isEmpty then splitTokensAux rest []
      else acc.reverse :: splitTokensAux rest []
    else splitTokensAux rest (c :: acc)

/-- Tokens of the card string. -/
def splitTokens (s : List Char) : List (List Char) := splitTokensAux s []

/-- Python `str.split(sep)` for a one-character separator: keeps empty
parts (unlike the delimiter split above). -/
def splitOnCharAux (sep : Char) : List Char → List Char → List (List Char)
  | [], acc => [acc.reverse]
  | c :: rest, acc =>
    if c == sep then acc.reverse :: splitOnCharAux sep rest []
    else splitOnCharAux sep rest (c :: acc)

/-- Python `expiry.split(sep)`. -/
def splitOnChar (sep : Char) (s : List Char) : List (List Char) := splitOnCharAux sep s []

/-- Python `f"{n:02d}"` for `n < 100`. -/
def fmt02 (n : Nat) : List Char :=
  if n < 10 then ['0', Char.ofNat ('0'.toNat + n)]
  else [Char.ofNat ('0'.toNat + n / 10), Char.ofNat ('0'.toNat + n % 10)]

/-- The 3-token branch: split the combined expiry on `/` or `-` into
exactly two sub-parts. -/
def splitExpiry (expiry : List Char) : Except ParseError (List Char × List Char) :=
  if expiry.contains '/' then
    match splitOnChar '/' expiry with
    | [m, y] => .ok (m, y)
    | _ => .error .expiryParts
  else if expiry.contains '-' then
    match splitOnChar '-' expiry with
    | [m, y] => .ok (m, y)
    | _ => .error .expiryParts
  else .error .expirySubsep

/-- Number and CVV digit checks of `_parse_card_string` (lines 136–144),
then the record is built. -/
def validateTail (card_number em ey cvv : List Char) : Except ParseError Record :=
  if !(isdigit card_number) then .error .numberDigits
  else if !(isdigit cvv) then .error .cvvDigits
  else .ok ⟨card_number, em, ey, cvv⟩

/-- Month validation/normalization and year normalization of
`_parse_card_string` (lines 121–134): month must parse and lie in
[1,12] and is zero-padded to two digits; a 2-character year is prefixed
with "20", a 4-character year kept, any other length is an error (the
year's characters themselves are never inspected). -/
def validateParts (card_number expiry_month expiry_year cvv : List Char) :
    Except ParseError Record :=
  match pyInt expiry_month with
  | none => .error .monthNumeric
  | some month_int =>
    if month_int < 1 || 12 < month_int then .error .monthRange
    else if expiry_year.length == 2 then
      validateTail card_number (fmt02 month_int.toNat) ('2' :: '0' :: expiry_year) cvv
    else if expiry_year.length != 4 then .error .yearLength
    else validateTail card_number (fmt02 month_int.toNat) expiry_year cvv

/-- Embedding of `CCParser._parse_card_string`: 3 tokens means a
combined expiry, 4 tokens means explicit month and year, anything else
is a format error; both token layouts share the field validation. -/
def parse_card_string (card_string : List Char) : Except ParseError Record :=
  match splitTokens card_string with
  | [card_number, expiry, cvv] =>
    match splitExpiry expiry with
    | .error e => .error e
    | .ok (m, y) => validateParts card_number m y cvv
  | [card_number, em, ey, cvv] => validateParts card_number em ey cvv
  | _ => .error .invalidFormat

/-- Embedding of `CCParser.__init__`: an empty raw string is rejected
before stripping; otherwise the stripped string is parsed. -/
def CCParser_init (card_string : List Char) : Except ParseError Record :=
  if card_string.isEmpty then .error .emptyInput
  else parse_card_string (stripWs card_string)

/-- The canonical two-digit month renderings "01"–"12". -/
def monthStrings : List (List Char) :=
  [['0','1'], ['0','2'], ['0','3'], ['0','4'], ['0','5'], ['0','6'],
   ['0','7'], ['0','8'], ['0','9'], ['1','0'], ['1','1'], ['1','2']]

theorem validateTail_ok {n em ey c : List Char} {r : Record}
    (h : validateTail n em ey c = .ok r) :
    r = ⟨n, em, ey, c⟩ ∧ isdigit n = true ∧ isdigit c = true := by
  unfold validateTail at h
  by_cases hn : isdigit n = true
  · rw [hn] at h
    simp only [Bool.not_true, Bool.false_eq_true, if_false] at h
    by_cases hc : isdigit c = true
    · rw [hc] at h
      simp only [Bool.not_true, Bool.false_eq_true, if_false] at h
      exact ⟨(Except.ok.inj h).symm, hn, hc⟩
    · rw [Bool.not_eq_true] at hc
      rw [hc] at h
      simp only [Bool.not_false, if_true] at h
      exact absurd h (by simp)
  · rw [Bool.not_eq_true] at hn
    rw [hn] at h
    simp only [Bool.not_false, if_true] at h
    exact absurd h (by simp)

theorem fmt02_mem_monthStrings (k : Nat) (h1 : 1 ≤ k) (h2 : k ≤ 12) :
    fmt02 k ∈ monthStrings := by
  have hall : ∀ j : Nat, j < 13 → 1 ≤ j → fmt02 j ∈ monthStrings := by decide
  exact hall k (by omega) h1

theorem validateParts_ok {n m y c : List Char} {r : Record}
    (h : validateParts n m y c = .ok r) :
    isdigit r.card_number = true ∧ isdigit r.cvv = true
    ∧ r.expiry_month ∈ monthStrings ∧ r.expiry_year.length = 4 := by
  unfold validateParts at h
  cases hm : pyInt m with
  | none =>
    simp only [hm] at h
    exact absurd h (by simp)
  | some mi =>
    simp only [hm] at h
    by_cases hr : (mi < 1 || 12 < mi) = true
    · rw [if_pos hr] at h
      exact absurd h (by simp)
    · rw [if_neg hr] at h
      simp only [Bool.or_eq_true, decide_eq_true_eq, not_or, not_lt] at hr
      have hmonth : fmt02 mi.toNat ∈ monthStrings :=
        fmt02_mem_monthStrings mi.toNat (by omega) (by omega)
      by_cases h2 : (y.length == 2) = true
      · rw [if_pos h2] at h
        obtain ⟨hrec, hn, hc⟩ := validateTail_ok h
        subst hrec
        refine ⟨hn, hc, hmonth, ?_⟩
        simp only [beq_iff_eq] at h2
        simp [h2]
      · rw [if_neg h2] at h
        by_cases h4 : (y.length != 4) = true
        · rw [if_pos h4] at h
          exact absurd h (by simp)
        · rw [if_neg h4] at h
          obtain ⟨hrec, hn, hc⟩ := validateTail_ok h
          subst hrec
          refine ⟨hn, hc, hmonth, ?_⟩
          simpa using h4

/-- C2 (amended): a successfully constructed record has a non-empty
all-digit card number, a non-empty all-digit CVV, a month rendered as
one of the two-digit strings "01"–"12", and a year of exactly four
characters — but the year's characters are not checked, so the year
field need not consist of digits. -/
theorem C2_record_invariants (s : List Char) (r : Record)
    (h : CCParser_init s = .ok r) :
    isdigit r.card_number = true ∧ isdigit r.cvv = true
    ∧ r.expiry_month ∈ monthStrings ∧ r.expiry_year.length = 4 := by
  unfold CCParser_init at h
  by_cases hs : s.isEmpty = true
  · rw [if_pos hs] at h
    exact absurd h (by simp)
  · rw [if_neg hs] at h
    unfold parse_card_string at h
    rcases hts : splitTokens (stripWs s) with _ | ⟨t1, _ | ⟨t2, _ | ⟨t3, _ | ⟨t4, _ | ⟨t5, rest⟩⟩⟩⟩⟩
    all_goals simp only [hts] at h
    · exact absurd h (by simp)
    · exact absurd h (by simp)
    · exact absurd h (by simp)
    · cases hse : splitExpiry t2 with
      | error e =>
        simp only [hse] at h
        exact absurd h (by simp)
      | ok p =>
        obtain ⟨m1, y1⟩ := p
        simp only [hse] at h
        exact validateParts_ok h
    · exact validateParts_ok h
    · exact absurd h (by simp)

/-- Witness for C2 at the parse of "4111111111111111|12|2030|123". -/
theorem C2_record_invariants_witness :
    isdigit "4111111111111111".data = true ∧ isdigit "123".data = true
    ∧ "12".data ∈ monthStrings ∧ ("2030".data).length = 4 :=
  C2_record_invariants "4111111111111111|12|2030|123".data
    ⟨"4111111111111111".data, "12".data, "2030".data, "123".data⟩ (by decide)

/-- Counterexample to C2 as stated: the year token "20ab" has length 4,
so construction succeeds and stores an expiry year that contains
non-digit characters. -/
theorem C2_counterexample_nondigit_year :
    CCParser_init "4111111111111111|12|20ab|123".data
      = .ok ⟨"4111111111111111".data, "12".data, "20ab".data, "123".data⟩
    ∧ ("20ab".data).all Char.isDigit = false := by
  refine ⟨?_, by decide⟩
  decide

/-- C7 (amended): an absent (empty) input fails at the EmptyInput site,
but a whitespace-only input survives the emptiness test, strips to the
empty string, splits into zero tokens, and fails at the
InvalidCardFormat (token-count) site instead. -/
theorem C7_empty_vs_whitespace :
    (∀ s : List Char, s = [] → CCParser_init s = .error .emptyInput)
    ∧ (∀ s : List Char, s ≠ [] → s.all Char.isWhitespace = true →
        CCParser_init s = .error .invalidFormat) := by
  constructor
  · intro s hs
    subst hs
    rfl
  · intro s hne hws
    have hstrip : stripWs s = [] := by
      unfold stripWs
      rw [List.dropWhile_eq_nil_iff.mpr (fun x hx => List.all_eq_true.mp hws x hx)]
      rfl
    unfold CCParser_init
    rw [if_neg (by simp [isEmpty_false_of_ne_nil hne]), hstrip]
    rfl

/-- Witness for C7 at the empty string and at a single space. -/
theorem C7_empty_vs_whitespace_witness :
    CCParser_init ([] : List Char) = .error .emptyInput
    ∧ CCParser_init " ".data = .error .invalidFormat :=
  ⟨C7_empty_vs_whitespace.1 [] rfl,
   C7_empty_vs_whitespace.2 " ".data (by decide) (by decide)⟩

/-- Counterexample to C7 as stated: the whitespace-only input " " fails
at the token-count (InvalidCardFormat) site, not the EmptyInput site. -/
theorem C7_counterexample_whitespace_only :
    CCParser_init " ".data = .error .invalidFormat
    ∧ ParseError.invalidFormat ≠ ParseError.emptyInput := by
  exact ⟨by decide, by decide⟩

theorem validateTail_number_bad {n em ey c : List Char} (hn : isdigit n = false) :
    validateTail n em ey c = .error .numberDigits := by
  unfold validateTail
  simp [hn]

/-- C10: when the input splits into exactly four tokens, the field
checks run month, year, number, CVV: if the expiry fields are malformed
(whatever the number and CVV look like), construction fails with an
InvalidExpiryDateError-site error; if month and year pass but both the
number and the CVV contain non-digits, it fails at the card-number site,
never the CVV site. -/
theorem C10_field_check_order :
    (∀ (s n m y c : List Char), s ≠ [] → splitTokens (stripWs s) = [n, m, y, c] →
      (pyInt m = none ∨ (∃ mi, pyInt m = some mi ∧ (mi < 1 ∨ 12 < mi))
        ∨ (y.length ≠ 2 ∧ y.length ≠ 4)) →
      (isdigit n = false ∨ isdigit c = false) →
      ∃ e, CCParser_init s = .error e ∧ errClass e = "InvalidExpiryDateError")
    ∧ (∀ (s n m y c : List Char), s ≠ [] → splitTokens (stripWs s) = [n, m, y, c] →
      (∃ mi, pyInt m = some mi ∧ 1 ≤ mi ∧ mi ≤ 12) →
      (y.length = 2 ∨ y.length = 4) →
      isdigit n = false → isdigit c = false →
      CCParser_init s = .error .numberDigits) := by
  have hred : ∀ (s n m y c : List Char), s ≠ [] → splitTokens (stripWs s) = [n, m, y, c] →
      CCParser_init s = validateParts n m y c := by
    intro s n m y c hne hts
    unfold CCParser_init
    rw [if_neg (by simp [isEmpty_false_of_ne_nil hne])]
    unfold parse_card_string
    simp only [hts]
  constructor
  · intro s n m y c hne hts hbad hdig
    rw [hred s n m y c hne hts]
    rcases hbad with hnone | ⟨mi, hmi, hrange⟩ | ⟨hy2, hy4⟩
    · refine ⟨.monthNumeric, ?_, rfl⟩
      unfold validateParts
      simp only [hnone]
    · refine ⟨.monthRange, ?_, rfl⟩
      unfold validateParts
      simp only [hmi]
      rw [if_pos (by simp only [Bool.or_eq_true, decide_eq_true_eq]; omega)]
    · cases hm : pyInt m with
      | none =>
        refine ⟨.monthNumeric, ?_, rfl⟩
        unfold validateParts
        simp only [hm]
      | some mi =>
        by_cases hr : (mi < 1 || 12 < mi) = true
        · refine ⟨.monthRange, ?_, rfl⟩
          unfold validateParts
          simp only [hm]
          rw [if_pos hr]
        · refine ⟨.yearLength, ?_, rfl⟩
          unfold validateParts
          simp only [hm]
          rw [if_neg hr, if_neg (by simp [hy2]), if_pos (by simp [hy4])]
  · intro s n m y c hne hts hmonth hyear hn hc
    rw [hred s n m y c hne hts]
    rcases hmonth with ⟨mi, hmi, h1, h2⟩
    unfold validateParts
    simp only [hmi]
    rw [if_neg (by simp only [Bool.or_eq_true, decide_eq_true_eq]; omega)]
    rcases hyear with hy | hy
    · rw [if_pos (by simp [hy])]
      exact validateTail_number_bad hn
    · rw [if_neg (by simp [hy]), if_neg (by simp [hy])]
      exact validateTail_number_bad hn

/-- Witness for C10: "4x11|13|2030|12y" (month out of range and bad
number) fails at an expiry site; "4x11|12|2030|12y" (good expiry, bad
number and CVV) fails at the card-number site. -/
theorem C10_field_check_order_witness :
    (∃ e, CCParser_init "4x11|13|2030|12y".data = .error e
      ∧ errClass e = "InvalidExpiryDateError")
    ∧ CCParser_init "4x11|12|2030|12y".data = .error .numberDigits :=
  ⟨C10_field_check_order.1 "4x11|13|2030|12y".data
      "4x11".data "13".data "2030".data "12y".data
      (by decide) (by decide)
      (Or.inr (Or.inl ⟨13, by decide, by decide⟩))
      (Or.inl (by decide)),
   C10_field_check_order.2 "4x11|12|2030|12y".data
      "4x11".data "12".data "2030".data "12y".data
      (by decide) (by decide)
      ⟨12, by decide, by decide, by decide⟩
      (Or.inr (by decide)) (by decide) (by decide)⟩

/-- C3: the lenient `is_valid` equals the conjunction of the three field
validators (and, being a total function of the record and the current
date, never raises), it answers true exactly when the strict `validate`
reports no error, and `validate` reports the distinguished error of the
first failing check in the fixed order number, expiry, CVV. -/
theorem C3_is_valid_validate (r : Record) (now : Date) :
    record_is_valid r now
      = (validate_card_number r.card_number
          && validate_expiry_date r.expiry_month r.expiry_year now
          && validate_cvv r.cvv r.card_number)
    ∧ (record_is_valid r now = true ↔ record_validate r now = none)
    ∧ (record_validate r now = some .invalidCardNumber
        ↔ validate_card_number r.card_number = false)
    ∧ (record_validate r now = some .invalidExpiryDate
        ↔ validate_card_number r.card_number = true
          ∧ validate_expiry_date r.expiry_month r.expiry_year now = false)
    ∧ (record_validate r now = some .invalidCVV
        ↔ validate_card_number r.card_number = true
          ∧ validate_expiry_date r.expiry_month r.expiry_year now = true
          ∧ validate_cvv r.cvv r.card_number = false) := by
  cases h1 : validate_card_number r.card_number <;>
    cases h2 : validate_expiry_date r.expiry_month r.expiry_year now <;>
      cases h3 : validate_cvv r.cvv r.card_number <;>
        simp [record_is_valid, record_validate, h1, h2, h3]

end CCP
